import Mathlib

/-!
Verification development for the devicemapper control-channel client
(src/src/dm.rs and src/src/types.rs).

Rust strings and byte buffers are modelled as lists of natural numbers
(each entry one byte, < 256 in well-formed data).  Machine integers are
modelled as Nat with explicit reductions modulo 2^32 or 2^64 where the
source performs an integer cast.  The kernel side of the ioctl system
call is modelled as an oracle function from the attempt number and the
submitted byte buffer to either an OS error code or the reply buffer.

The C struct layouts live in the bindgen-generated module dm_ioctl and
in util.rs / device.rs, none of which are under src/; those definitions
are modelled from the spec (section 6, wire record layouts) and are
marked as such in their doc comments.
-/

/-- MIN_BUF_SIZE from dm.rs line 35: 16 KiB starting buffer. -/
def MIN_BUF_SIZE : Nat := 16 * 1024

/-- DmFlags bit DM_READONLY, dm.rs. -/
def DM_READONLY : Nat := 1
/-- DmFlags bit DM_SUSPEND, dm.rs. -/
def DM_SUSPEND : Nat := 2
/-- DmFlags bit DM_PERSISTENT_DEV, dm.rs. -/
def DM_PERSISTENT_DEV : Nat := 8
/-- DmFlags bit DM_STATUS_TABLE, dm.rs. -/
def DM_STATUS_TABLE : Nat := 16
/-- DmFlags bit DM_BUFFER_FULL, dm.rs. -/
def DM_BUFFER_FULL : Nat := 256
/-- DmFlags bit DM_SKIP_LOCKFS, dm.rs. -/
def DM_SKIP_LOCKFS : Nat := 1024
/-- DmFlags bit DM_NOFLUSH, dm.rs. -/
def DM_NOFLUSH : Nat := 2048
/-- DmFlags bit DM_QUERY_INACTIVE_TABLE, dm.rs. -/
def DM_QUERY_INACTIVE_TABLE : Nat := 4096
/-- DmFlags bit DM_UUID, dm.rs. -/
def DM_UUID : Nat := 16384
/-- DmFlags bit DM_DATA_OUT, dm.rs. -/
def DM_DATA_OUT : Nat := 65536
/-- DmFlags bit DM_DEFERRED_REMOVE, dm.rs. -/
def DM_DEFERRED_REMOVE : Nat := 131072

/-- DM_VERSION_MAJOR from dm.rs. -/
def DM_VERSION_MAJOR : Nat := 4
/-- DM_VERSION_MINOR from dm.rs. -/
def DM_VERSION_MINOR : Nat := 30
/-- DM_VERSION_PATCHLEVEL from dm.rs. -/
def DM_VERSION_PATCHLEVEL : Nat := 0

/-- Modelled from the spec: size in bytes of the C control header struct
dm_ioctl (the bindgen module dm_ioctl is not under src/).  Per the wire
layout of section 6: version triple (12), data_size, data_start,
target_count, open_count, flags, event_nr, padding (4 each), dev (8),
name (128), uuid (129), trailing pad (7) = 312 bytes. -/
def dm_ioctl_size : Nat := 312

/-- Modelled from the spec: size in bytes of the C struct dm_target_spec:
sector start (8), length (8), status word (4), next-offset (4), fixed
16-byte type name = 40 bytes. -/
def dm_target_spec_size : Nat := 40

/-- Modelled from the spec: size in bytes of the C struct dm_name_list:
packed device number (8), next-offset (4), padded to 8-byte alignment
= 16 bytes; the name text follows at byte offset 12. -/
def dm_name_list_size : Nat := 16

/-- Modelled from the spec: size in bytes of the C struct
dm_target_versions: next-offset (4), version triple (12) = 16 bytes,
name text following. -/
def dm_target_versions_size : Nat := 16

/-- Modelled from the spec: size in bytes of the C struct dm_target_deps:
count (4), padding (4) = 8 bytes, 64-bit device slots following. -/
def dm_target_deps_size : Nat := 8

/-- Modelled from the spec: align_to from util.rs (not under src/),
rounding num up to the next multiple of align. -/
def alignTo (num align : Nat) : Nat := (num + align - 1) / align * align

/-- Modelled from the spec: slice_to_null from util.rs (not under src/),
returning the bytes before the first NUL, or none when no NUL occurs. -/
def sliceToNull : List Nat → Option (List Nat)
  | [] => none
  | b :: rest => if b = 0 then some [] else (sliceToNull rest).map (fun s => b :: s)

/-- Little-endian bytes of a 32-bit value, as written by the C ABI. -/
def u32le (n : Nat) : List Nat :=
  [n % 2 ^ 8, n / 2 ^ 8 % 2 ^ 8, n / 2 ^ 16 % 2 ^ 8, n / 2 ^ 24 % 2 ^ 8]

/-- Little-endian bytes of a 64-bit value. -/
def u64le (n : Nat) : List Nat := u32le n ++ u32le (n / 2 ^ 32)

/-- Read a little-endian 32-bit value at a byte offset (0 past the end). -/
def readU32 (l : List Nat) (off : Nat) : Nat :=
  l.getD off 0 + 2 ^ 8 * l.getD (off + 1) 0 + 2 ^ 16 * l.getD (off + 2) 0 +
    2 ^ 24 * l.getD (off + 3) 0

/-- Read a little-endian 64-bit value at a byte offset. -/
def readU64 (l : List Nat) (off : Nat) : Nat :=
  readU32 l off + 2 ^ 32 * readU32 l (off + 4)

/-- Overwrite four bytes at a byte offset with a little-endian 32-bit
value (out-of-range positions are left unchanged, as for List.set). -/
def writeU32 (l : List Nat) (off n : Nat) : List Nat :=
  ((((l.set off (n % 2 ^ 8)).set (off + 1) (n / 2 ^ 8 % 2 ^ 8)).set
      (off + 2) (n / 2 ^ 16 % 2 ^ 8)).set (off + 3) (n / 2 ^ 24 % 2 ^ 8))

/-- The control header dm_ioctl, with byte-array fields kept as byte
lists.  Field order follows the wire layout. -/
structure DmHdr where
  version0 : Nat
  version1 : Nat
  version2 : Nat
  data_size : Nat
  data_start : Nat
  target_count : Nat
  open_count : Nat
  flags : Nat
  event_nr : Nat
  dev : Nat
  name : List Nat
  uuid : List Nat
deriving DecidableEq

/-- The all-zero header produced by Default::default() on the bindgen
struct. -/
def defaultHdr : DmHdr :=
  { version0 := 0, version1 := 0, version2 := 0, data_size := 0, data_start := 0,
    target_count := 0, open_count := 0, flags := 0, event_nr := 0, dev := 0,
    name := List.replicate 128 0, uuid := List.replicate 129 0 }

/-- A fixed-width byte field of width n: content truncated to n bytes and
padded with NULs. -/
def fixedField (l : List Nat) (n : Nat) : List Nat :=
  l.take n ++ List.replicate (n - l.length) 0

/-- Serialize the header into its 312-byte wire form (the first
data_start bytes of the struct, as captured by hdr_slc in do_ioctl). -/
def serializeHdr (h : DmHdr) : List Nat :=
  u32le h.version0 ++ u32le h.version1 ++ u32le h.version2 ++
    u32le h.data_size ++ u32le h.data_start ++ u32le h.target_count ++
    u32le h.open_count ++ u32le h.flags ++ u32le h.event_nr ++ u32le 0 ++
    u64le h.dev ++ fixedField h.name 128 ++ fixedField h.uuid 129 ++
    List.replicate 7 0

/-- Reinterpret the front of a byte buffer as a dm_ioctl header, as the
unsafe pointer cast in do_ioctl does. -/
def deserializeHdr (v : List Nat) : DmHdr :=
  { version0 := readU32 v 0, version1 := readU32 v 4, version2 := readU32 v 8,
    data_size := readU32 v 12, data_start := readU32 v 16,
    target_count := readU32 v 20, open_count := readU32 v 24,
    flags := readU32 v 28, event_nr := readU32 v 32, dev := readU64 v 40,
    name := (v.drop 48).take 128, uuid := (v.drop 176).take 129 }

/-- DM::initialize_hdr, dm.rs lines 101 to 109: stamp the version
triple, write the (pre-masked) flag bits, set data_start to the header
size. -/
def init_hdr (hdr : DmHdr) (flags : Nat) : DmHdr :=
  { hdr with version0 := DM_VERSION_MAJOR, version1 := DM_VERSION_MINOR,
             version2 := DM_VERSION_PATCHLEVEL, flags := flags,
             data_start := dm_ioctl_size }

/-- DM::hdr_set_name: overwrite the first bytes of the fixed name field. -/
def hdr_set_name (hdr : DmHdr) (nm : List Nat) : DmHdr :=
  { hdr with name := nm ++ hdr.name.drop nm.length }

/-- DM::hdr_set_uuid: overwrite the first bytes of the fixed uuid field. -/
def hdr_set_uuid (hdr : DmHdr) (u : List Nat) : DmHdr :=
  { hdr with uuid := u ++ hdr.uuid.drop u.length }

/-- DevId from types.rs: address a device by name or by uuid. -/
inductive DevId where
  | byName : List Nat → DevId
  | byUuid : List Nat → DevId
deriving DecidableEq

/-- The match on DevId performed by every device-addressing operation. -/
def hdr_set_id (hdr : DmHdr) (id : DevId) : DmHdr :=
  match id with
  | DevId.byName nm => hdr_set_name hdr nm
  | DevId.byUuid u => hdr_set_uuid hdr u

/-- A model of the kernel side of the ioctl syscall: given the attempt
number and the submitted buffer, either an OS error code (the errno
captured by io::Error::last_os_error) or the reply buffer, written in
place and hence of the same length. -/
def KernelModel : Type := Nat → List Nat → Except Nat (List Nat)

/-- Payload length of the optional in_data argument of do_ioctl. -/
def payloadLen (p : Option (List Nat)) : Nat := (p.map List.length).getD 0

/-- do_ioctl, dm.rs lines 138 to 140: the header with data_size set to
the larger of MIN_BUF_SIZE and header-plus-payload size (cast to u32). -/
def mkIoctlHdr (hdr : DmHdr) (p : Option (List Nat)) : DmHdr :=
  { hdr with data_size := max MIN_BUF_SIZE (dm_ioctl_size + payloadLen p) % 2 ^ 32 }

/-- do_ioctl, dm.rs lines 141 to 156: the initial working buffer, the
serialized header followed by the payload, zero-filled up to data_size. -/
def mkIoctlBuf (hdr : DmHdr) (p : Option (List Nat)) : List Nat :=
  serializeHdr (mkIoctlHdr hdr p) ++ p.getD [] ++
    List.replicate ((mkIoctlHdr hdr p).data_size -
      (serializeHdr (mkIoctlHdr hdr p) ++ p.getD []).length) 0

/-- do_ioctl, dm.rs lines 178 to 180: on a buffer-full reply, double the
buffer length (zero-filled) and store the new length into the header
data_size field inside the buffer (byte offset 12, cast to u32). -/
def growBuf (v : List Nat) : List Nat :=
  writeU32 (v ++ List.replicate v.length 0) 12 (2 * v.length)

/-- do_ioctl, dm.rs lines 183 to 195: decode the possibly kernel-mutated
header from the final buffer and return the data section, the slice from
data_start up to max data_start data_size. -/
def extractReply (v : List Nat) : DmHdr × List Nat :=
  (deserializeHdr v,
    (v.drop (deserializeHdr v).data_start).take
      (max (deserializeHdr v).data_start (deserializeHdr v).data_size -
        (deserializeHdr v).data_start))

/-- The ioctl retry loop of do_ioctl, dm.rs lines 159 to 181, with
explicit fuel bounding the number of buffer-growth retries (none means
the fuel ran out, which has no counterpart in the unbounded source
loop).  An error returns immediately, carrying the errno and the header
as it was sent; a reply with DM_BUFFER_FULL clear ends the loop. -/
def ioctlLoop (k : KernelModel) (sent : DmHdr) :
    Nat → Nat → List Nat → Option (Except (Nat × DmHdr) (DmHdr × List Nat))
  | 0, attempt, v =>
    match k attempt v with
    | Except.error e => some (Except.error (e, sent))
    | Except.ok v2 =>
      if (deserializeHdr v2).flags &&& DM_BUFFER_FULL = 0 then
        some (Except.ok (extractReply v2))
      else none
  | fuel + 1, attempt, v =>
    match k attempt v with
    | Except.error e => some (Except.error (e, sent))
    | Except.ok v2 =>
      if (deserializeHdr v2).flags &&& DM_BUFFER_FULL = 0 then
        some (Except.ok (extractReply v2))
      else ioctlLoop k sent fuel (attempt + 1) (growBuf v2)

/-- DM::do_ioctl, dm.rs lines 126 to 195, as a whole: size the buffer,
serialize header and payload, run the retry loop. -/
def do_ioctl (k : KernelModel) (fuel : Nat) (hdr : DmHdr) (p : Option (List Nat)) :
    Option (Except (Nat × DmHdr) (DmHdr × List Nat)) :=
  ioctlLoop k (mkIoctlHdr hdr p) fuel 0 (mkIoctlBuf hdr p)

/-- TargetLine from types.rs: one row of a mapping table.  Sector counts
are u64 values, the type name and the parameter string are byte lists. -/
structure TargetLine where
  start : Nat
  length : Nat
  target_type : List Nat
  params : List Nat
deriving DecidableEq

/-- table_load, dm.rs lines 530 to 533: pad the parameter string with
NULs so that it gains at least one terminating NUL and its padded length
is 8-byte aligned. -/
def padParams (p : List Nat) : List Nat :=
  p ++ List.replicate (alignTo (p.length + 1) 8 - p.length) 0

/-- table_load, dm.rs lines 518 to 537 and 554 to 562: the 16-byte type
field, zero initialized then overwritten with the type bytes. -/
def typeField (tt : List Nat) : List Nat := tt ++ List.replicate (16 - tt.length) 0

/-- The wire bytes of one target record: the fixed dm_target_spec
followed by the padded parameter string.  The status word is written as
0 and the next-offset as the fixed record size plus the padded length. -/
def encBody (t : TargetLine) : List Nat :=
  u64le t.start ++ u64le t.length ++ u32le 0 ++
    u32le (dm_target_spec_size + (padParams t.params).length) ++
    typeField t.target_type ++ padParams t.params

/-- One target record of table_load; none models the panic of the
assert when the type name exceeds the 16-byte field. -/
def encodeSpec (t : TargetLine) : Option (List Nat) :=
  if t.target_type.length ≤ 16 then some (encBody t) else none

/-- table_load, dm.rs lines 552 to 562: flatten the target records into
the payload buffer, in order. -/
def encodeTargets : List TargetLine → Option (List Nat)
  | [] => some []
  | t :: ts =>
    match encodeSpec t, encodeTargets ts with
    | some e, some rest => some (e ++ rest)
    | _, _ => none

/-- The header built by table_load, dm.rs lines 540 to 549: initialized
with empty flags, identifier set, target_count set to the number of
lines (cast to u32). -/
def table_load_hdr (id : DevId) (ts : List TargetLine) : DmHdr :=
  { hdr_set_id (init_hdr defaultHdr 0) id with target_count := ts.length % 2 ^ 32 }

/-- Bytes considered whitespace by trim, for byte strings (the ASCII
whitespace characters). -/
def isWsByte (b : Nat) : Bool := b = 32 || (9 ≤ b && b ≤ 13)

/-- The trailing-whitespace trim applied to returned parameter strings,
dm.rs line 662. -/
def trimRight (l : List Nat) : List Nat := (l.reverse.dropWhile isWsByte).reverse

/-- A target line as parse_table_status canonicalizes it: parameter
string trimmed of trailing whitespace. -/
def canonicalLine (t : TargetLine) : TargetLine := { t with params := trimRight t.params }

/-- The body of the parse_table_status loop, dm.rs lines 645 to 673:
read the fixed record at the front of result, extract the
NUL-terminated type from its 16-byte field and the NUL-terminated
parameter string from the remainder, trim it, and report the
self-declared next offset.  none models the panics of the expects. -/
def parseOneTarget (result : List Nat) : Option (TargetLine × Nat) :=
  match sliceToNull ((result.drop 24).take 16),
        sliceToNull (result.drop dm_target_spec_size) with
  | some tt, some ps =>
    some ({ start := readU64 result 0, length := readU64 result 8,
            target_type := tt, params := trimRight ps }, readU32 result 20)
  | _, _ => none

/-- The for loop of parse_table_status: exactly count iterations, each
re-slicing the whole buffer at the current next offset. -/
def parseLoopTS (buf : List Nat) : Nat → Nat → Option (List TargetLine)
  | 0, _ => some []
  | n + 1, off =>
    match parseOneTarget (buf.drop off) with
    | none => none
    | some (t, nxt) =>
      match parseLoopTS buf n nxt with
      | none => none
      | some rest => some (t :: rest)

/-- DM::parse_table_status, dm.rs lines 640 to 677. -/
def parse_table_status (count : Nat) (buf : List Nat) : Option (List TargetLine) :=
  if buf.isEmpty then some [] else parseLoopTS buf count 0

/-- The header built by remove_all, dm.rs lines 215 to 221: flags masked
to DM_DEFERRED_REMOVE. -/
def remove_all_hdr (flags : Nat) : DmHdr :=
  init_hdr defaultHdr (DM_DEFERRED_REMOVE &&& flags)

/-- The header built by device_suspend, dm.rs lines 422 to 432: flags
masked to DM_SUSPEND, DM_NOFLUSH and DM_SKIP_LOCKFS. -/
def device_suspend_hdr (id : DevId) (flags : Nat) : DmHdr :=
  hdr_set_id (init_hdr defaultHdr ((DM_SUSPEND ||| DM_NOFLUSH ||| DM_SKIP_LOCKFS) &&& flags)) id

/-- The header built by table_status, dm.rs lines 710 to 719: flags
masked to DM_NOFLUSH, DM_STATUS_TABLE and DM_QUERY_INACTIVE_TABLE. -/
def table_status_hdr (id : DevId) (flags : Nat) : DmHdr :=
  hdr_set_id
    (init_hdr defaultHdr ((DM_NOFLUSH ||| DM_STATUS_TABLE ||| DM_QUERY_INACTIVE_TABLE) &&& flags))
    id

/-- The body of the list_devices loop, dm.rs lines 241 to 305: the name
is the NUL-terminated text after the fixed dm_name_list record, the
device number and next offset come from the record, and the event
number is read at an offset whose computation is keyed on the kernel
minor version in the reply header.  The result carries name bytes,
device number, next offset and optional event number. -/
def parseOneDevice (minor : Nat) (result : List Nat) :
    Option (List Nat × Nat × Nat × Option Nat) :=
  match sliceToNull (result.drop dm_name_list_size) with
  | none => none
  | some slc =>
    some (slc, readU64 result 0, readU32 result 8,
      if minor ≤ 36 then
        if minor = 36 then
          some (readU32 result (alignTo (dm_name_list_size + (slc.length + 1) + 7) 8))
        else none
      else some (readU32 result (alignTo (12 + (slc.length + 1)) 8)))

/-- The record walk of list_devices: follow each record's next offset
until it is 0 (fuel bounds the walk; none models fuel exhaustion or a
parse panic). -/
def listDevLoop (minor : Nat) : Nat → List Nat → Option (List (List Nat × Nat × Option Nat))
  | 0, _ => none
  | fuel + 1, result =>
    match parseOneDevice minor result with
    | none => none
    | some (nm, dv, nxt, ev) =>
      if nxt = 0 then some [(nm, dv, ev)]
      else
        match listDevLoop minor fuel (result.drop nxt) with
        | none => none
        | some rest => some ((nm, dv, ev) :: rest)

/-- DM::list_devices, dm.rs lines 230 to 309, decoding stage: an empty
payload gives an empty list, otherwise the record walk runs on the
payload. -/
def list_devices_parse (minor : Nat) (buf : List Nat) :
    Option (List (List Nat × Nat × Option Nat)) :=
  if buf.isEmpty then some [] else listDevLoop minor (buf.length + 1) buf

/-- The body of the list_versions loop, dm.rs lines 741 to 759: the
dm_target_versions record holds the next offset at byte 0 and the
version triple at bytes 4, 8, 12, with the NUL-terminated name after
the record. -/
def parseOneVersion (result : List Nat) : Option ((List Nat × Nat × Nat × Nat) × Nat) :=
  match sliceToNull (result.drop dm_target_versions_size) with
  | none => none
  | some slc =>
    some ((slc, readU32 result 4, readU32 result 8, readU32 result 12), readU32 result 0)

/-- The record walk of list_versions. -/
def listVerLoop : Nat → List Nat → Option (List (List Nat × Nat × Nat × Nat))
  | 0, _ => none
  | fuel + 1, result =>
    match parseOneVersion result with
    | none => none
    | some (entry, nxt) =>
      if nxt = 0 then some [entry]
      else
        match listVerLoop fuel (result.drop nxt) with
        | none => none
        | some rest => some (entry :: rest)

/-- DM::list_versions, dm.rs lines 730 to 763, decoding stage. -/
def list_versions_parse (buf : List Nat) : Option (List (List Nat × Nat × Nat × Nat)) :=
  if buf.isEmpty then some [] else listVerLoop (buf.length + 1) buf

/-- Modelled from the spec: Device::from_kdev_t from device.rs (not
under src/), splitting the kernel huge dev_t encoding into major and
minor numbers. -/
def fromKdevT (d : Nat) : Nat × Nat :=
  (d / 2 ^ 8 &&& 4095, (d &&& 255) ||| (d / 2 ^ 12 &&& 1044480))

/-- DM::table_deps, dm.rs lines 602 to 626, decoding stage: an empty
payload gives an empty list; otherwise count 64-bit slots follow the
fixed dm_target_deps record, each truncated to its low 32 bits and
decoded as a device number. -/
def table_deps_parse (buf : List Nat) : Option (List (Nat × Nat)) :=
  if buf.isEmpty then some []
  else
    some ((List.range (readU32 buf 0)).map
      (fun i => fromKdevT (readU64 buf (dm_target_deps_size + 8 * i) % 2 ^ 32)))

/-- DM::target_msg, dm.rs lines 793 to 797, output stage: the output
string is present exactly when the data-out flag is set in the reply
header, and is the payload with its final byte removed. -/
def target_msg_output (flags : Nat) (data_out : List Nat) : Option (List Nat) :=
  if flags &&& DM_DATA_OUT > 0 then some (data_out.take (data_out.length - 1)) else none

lemma getD_set_self (l : List Nat) (i a : Nat) (h : i < l.length) :
    (l.set i a).getD i 0 = a := by
  simp [List.getD, List.getElem?_set_self, h]

lemma getD_set_ne (l : List Nat) (i j a : Nat) (h : i ≠ j) :
    (l.set i a).getD j 0 = l.getD j 0 := by
  simp [List.getD, List.getElem?_set_ne h]

lemma getD_drop (l : List Nat) (off i : Nat) :
    (l.drop off).getD i 0 = l.getD (off + i) 0 := by
  simp [List.getD, List.getElem?_drop]

lemma readU32_eq_drop (l : List Nat) (off : Nat) :
    readU32 l off = readU32 (l.drop off) 0 := by
  simp [readU32, getD_drop]

lemma readU64_eq_drop (l : List Nat) (off : Nat) :
    readU64 l off = readU64 (l.drop off) 0 := by
  simp [readU64, readU32, getD_drop]

lemma length_u32le (n : Nat) : (u32le n).length = 4 := rfl

lemma length_u64le (n : Nat) : (u64le n).length = 8 := rfl

lemma readU32_u32le (n : Nat) (rest : List Nat) :
    readU32 (u32le n ++ rest) 0 = n % 2 ^ 32 := by
  simp [readU32, u32le, List.getD_cons_zero, List.getD_cons_succ]
  omega

lemma drop4_u32le (n : Nat) (rest : List Nat) : (u32le n ++ rest).drop 4 = rest := rfl

lemma readU64_u64le (n : Nat) (rest : List Nat) :
    readU64 (u64le n ++ rest) 0 = n % 2 ^ 64 := by
  have h4 : readU32 (u64le n ++ rest) 4 = n / 2 ^ 32 % 2 ^ 32 := by
    rw [readU32_eq_drop]
    have : (u64le n ++ rest).drop 4 = u32le (n / 2 ^ 32) ++ rest := by
      simp [u64le, u32le]
    rw [this, readU32_u32le]
  have h0 : readU32 (u64le n ++ rest) 0 = n % 2 ^ 32 := by
    have : u64le n ++ rest = u32le n ++ (u32le (n / 2 ^ 32) ++ rest) := by
      simp [u64le]
    rw [this, readU32_u32le]
  rw [readU64, h0, h4]
  omega

lemma length_fixedField (l : List Nat) (n : Nat) : (fixedField l n).length = n := by
  simp [fixedField]
  omega

lemma length_serializeHdr (h : DmHdr) : (serializeHdr h).length = dm_ioctl_size := by
  simp [serializeHdr, length_u32le, length_u64le, length_fixedField, dm_ioctl_size,
    u32le, u64le, fixedField]
  omega

lemma length_writeU32 (l : List Nat) (off n : Nat) : (writeU32 l off n).length = l.length := by
  simp [writeU32]

lemma readU32_writeU32 (l : List Nat) (off n : Nat) (h : off + 3 < l.length) :
    readU32 (writeU32 l off n) off = n % 2 ^ 32 := by
  have g0 : (writeU32 l off n).getD off 0 = n % 2 ^ 8 := by
    unfold writeU32
    rw [getD_set_ne _ (off + 3) off _ (by omega), getD_set_ne _ (off + 2) off _ (by omega),
        getD_set_ne _ (off + 1) off _ (by omega), getD_set_self _ off _ (by omega)]
  have g1 : (writeU32 l off n).getD (off + 1) 0 = n / 2 ^ 8 % 2 ^ 8 := by
    unfold writeU32
    rw [getD_set_ne _ (off + 3) (off + 1) _ (by omega),
        getD_set_ne _ (off + 2) (off + 1) _ (by omega),
        getD_set_self _ (off + 1) _ (by simp; omega)]
  have g2 : (writeU32 l off n).getD (off + 2) 0 = n / 2 ^ 16 % 2 ^ 8 := by
    unfold writeU32
    rw [getD_set_ne _ (off + 3) (off + 2) _ (by omega),
        getD_set_self _ (off + 2) _ (by simp; omega)]
  have g3 : (writeU32 l off n).getD (off + 3) 0 = n / 2 ^ 24 % 2 ^ 8 := by
    unfold writeU32
    rw [getD_set_self _ (off + 3) _ (by simp; omega)]
  rw [readU32, g0, g1, g2, g3]
  omega

lemma length_growBuf (v : List Nat) : (growBuf v).length = 2 * v.length := by
  simp [growBuf, length_writeU32]
  omega

lemma growBuf_data_size (v : List Nat) (h : 16 ≤ v.length) :
    (deserializeHdr (growBuf v)).data_size = 2 * v.length % 2 ^ 32 := by
  have : (deserializeHdr (growBuf v)).data_size = readU32 (growBuf v) 12 := rfl
  rw [this, growBuf, readU32_writeU32]
  simp
  omega

lemma ioctlLoop_error (k : KernelModel) (sent : DmHdr) (fuel attempt : Nat)
    (v : List Nat) (e : Nat) (h : k attempt v = Except.error e) :
    ioctlLoop k sent fuel attempt v = some (Except.error (e, sent)) := by
  cases fuel <;> simp [ioctlLoop, h]

lemma ioctlLoop_ok_clear (k : KernelModel) (sent : DmHdr) (fuel attempt : Nat)
    (v v2 : List Nat) (h : k attempt v = Except.ok v2)
    (hf : (deserializeHdr v2).flags &&& DM_BUFFER_FULL = 0) :
    ioctlLoop k sent fuel attempt v = some (Except.ok (extractReply v2)) := by
  cases fuel <;> simp [ioctlLoop, h, hf]

lemma ioctlLoop_ok_full (k : KernelModel) (sent : DmHdr) (fuel attempt : Nat)
    (v v2 : List Nat) (h : k attempt v = Except.ok v2)
    (hf : (deserializeHdr v2).flags &&& DM_BUFFER_FULL ≠ 0) :
    ioctlLoop k sent (fuel + 1) attempt v =
      ioctlLoop k sent fuel (attempt + 1) (growBuf v2) := by
  simp [ioctlLoop, h, hf]

lemma payloadLen_getD (p : Option (List Nat)) : (p.getD []).length = payloadLen p := by
  cases p <;> rfl

lemma data_size_of_mkIoctlHdr (hdr : DmHdr) (p : Option (List Nat))
    (h : dm_ioctl_size + payloadLen p < 2 ^ 32) :
    (mkIoctlHdr hdr p).data_size = max MIN_BUF_SIZE (dm_ioctl_size + payloadLen p) := by
  simp only [mkIoctlHdr]
  exact Nat.mod_eq_of_lt (by simp [MIN_BUF_SIZE]; omega)

/-- C1: the do_ioctl buffer protocol.  The initial data_size is the
maximum of the 16 KiB minimum and the header size plus the payload
length; the initial buffer is the serialized header, then the payload,
then a zero fill, with total length data_size; whenever the reply flags
contain DM_BUFFER_FULL the buffer length is doubled with the in-buffer
data_size field updated to the new length and the ioctl re-issued; and
the loop ends exactly when DM_BUFFER_FULL is clear. -/
theorem dm_c1_do_ioctl_buffer_protocol :
    (∀ hdr p, dm_ioctl_size + payloadLen p < 2 ^ 32 →
      (mkIoctlHdr hdr p).data_size = max MIN_BUF_SIZE (dm_ioctl_size + payloadLen p) ∧
      mkIoctlBuf hdr p =
        serializeHdr (mkIoctlHdr hdr p) ++ p.getD [] ++
          List.replicate ((mkIoctlHdr hdr p).data_size - (dm_ioctl_size + payloadLen p)) 0 ∧
      (mkIoctlBuf hdr p).length = (mkIoctlHdr hdr p).data_size) ∧
    (∀ k sent fuel attempt v v2, k attempt v = Except.ok v2 →
      ((deserializeHdr v2).flags &&& DM_BUFFER_FULL ≠ 0 →
        ioctlLoop k sent (fuel + 1) attempt v =
          ioctlLoop k sent fuel (attempt + 1) (growBuf v2) ∧
        (growBuf v2).length = 2 * v2.length ∧
        (16 ≤ v2.length →
          (deserializeHdr (growBuf v2)).data_size = 2 * v2.length % 2 ^ 32)) ∧
      ((deserializeHdr v2).flags &&& DM_BUFFER_FULL = 0 →
        ∀ fuel2, ioctlLoop k sent fuel2 attempt v = some (Except.ok (extractReply v2)))) := by
  constructor
  · intro hdr p h
    refine ⟨data_size_of_mkIoctlHdr hdr p h, ?_, ?_⟩
    · simp only [mkIoctlBuf, List.length_append, length_serializeHdr, payloadLen_getD]
    · have hlen : (serializeHdr (mkIoctlHdr hdr p) ++ p.getD []).length =
          dm_ioctl_size + payloadLen p := by
        simp [List.length_append, length_serializeHdr, payloadLen_getD]
      have hds := data_size_of_mkIoctlHdr hdr p h
      simp only [mkIoctlBuf, List.length_append, List.length_replicate, hds] at *
      simp only [length_serializeHdr, payloadLen_getD] at *
      simp [MIN_BUF_SIZE] at *
  · intro k sent fuel attempt v v2 hok
    refine ⟨fun hfull => ⟨ioctlLoop_ok_full k sent fuel attempt v v2 hok hfull,
        length_growBuf v2, fun h16 => growBuf_data_size v2 h16⟩,
      fun hclear fuel2 => ioctlLoop_ok_clear k sent fuel2 attempt v v2 hok hclear⟩

/-- C1 witness: the buffer-full branch re-issues on the doubled buffer,
the clear branch returns, and the initial size formula evaluates, all
at concrete inputs. -/
theorem dm_c1_witness :
    ioctlLoop (fun _ _ => Except.ok (List.replicate 32 0)) defaultHdr 1 0 [] =
      some (Except.ok (extractReply (List.replicate 32 0))) ∧
    ioctlLoop (fun _ _ => Except.ok (List.replicate 28 0 ++ [0, 1, 0, 0])) defaultHdr 1 0 [] =
      ioctlLoop (fun _ _ => Except.ok (List.replicate 28 0 ++ [0, 1, 0, 0])) defaultHdr 0 1
        (growBuf (List.replicate 28 0 ++ [0, 1, 0, 0])) ∧
    (mkIoctlHdr defaultHdr none).data_size =
      max MIN_BUF_SIZE (dm_ioctl_size + payloadLen none) := by
  refine ⟨?_, ?_, ?_⟩
  · exact ((dm_c1_do_ioctl_buffer_protocol.2 _ defaultHdr 0 0 [] _ rfl).2 (by decide)) 1
  · exact ((dm_c1_do_ioctl_buffer_protocol.2 _ defaultHdr 0 0 [] _ rfl).1 (by decide)).1
  · exact (dm_c1_do_ioctl_buffer_protocol.1 defaultHdr none (by decide)).1

/-- C3: any ioctl error returns immediately with the last OS error code
and the header as it was sent; errors are never retried, at any point
of the loop. -/
theorem dm_c3_error_surface :
    (∀ k fuel hdr p e, k 0 (mkIoctlBuf hdr p) = Except.error e →
      do_ioctl k fuel hdr p = some (Except.error (e, mkIoctlHdr hdr p))) ∧
    (∀ k sent fuel attempt v e, k attempt v = Except.error e →
      ioctlLoop k sent fuel attempt v = some (Except.error (e, sent))) := by
  constructor
  · intro k fuel hdr p e h
    rw [do_ioctl]
    exact ioctlLoop_error k (mkIoctlHdr hdr p) fuel 0 (mkIoctlBuf hdr p) e h
  · intro k sent fuel attempt v e h
    exact ioctlLoop_error k sent fuel attempt v e h

/-- C3 witness: a kernel that fails with errno 5 makes do_ioctl report
errno 5 with the sent header. -/
theorem dm_c3_witness :
    do_ioctl (fun _ _ => Except.error 5) 0 defaultHdr none =
      some (Except.error (5, mkIoctlHdr defaultHdr none)) :=
  dm_c3_error_surface.1 (fun _ _ => Except.error 5) 0 defaultHdr none 5 rfl

/-- C4: on a successful reply with the buffer-full bit clear, the loop
returns the kernel-mutated header decoded from the final buffer
together with the buffer slice from data_start of length data_size
minus data_start, the subtraction clamped at zero so that data_size
below data_start yields an empty payload. -/
theorem dm_c4_reply_extraction :
    ∀ k sent fuel attempt v v2, k attempt v = Except.ok v2 →
      (deserializeHdr v2).flags &&& DM_BUFFER_FULL = 0 →
      ioctlLoop k sent fuel attempt v =
        some (Except.ok (deserializeHdr v2,
          (v2.drop (deserializeHdr v2).data_start).take
            ((deserializeHdr v2).data_size - (deserializeHdr v2).data_start))) ∧
      ((deserializeHdr v2).data_size ≤ (deserializeHdr v2).data_start →
        (v2.drop (deserializeHdr v2).data_start).take
          ((deserializeHdr v2).data_size - (deserializeHdr v2).data_start) = []) := by
  intro k sent fuel attempt v v2 hok hclear
  constructor
  · rw [ioctlLoop_ok_clear k sent fuel attempt v v2 hok hclear]
    have hmax : max (deserializeHdr v2).data_start (deserializeHdr v2).data_size -
        (deserializeHdr v2).data_start =
        (deserializeHdr v2).data_size - (deserializeHdr v2).data_start := by omega
    rw [extractReply, hmax]
  · intro hle
    have : (deserializeHdr v2).data_size - (deserializeHdr v2).data_start = 0 := by omega
    rw [this]
    simp

/-- C4 witness: a concrete all-zero 32-byte reply yields the decoded
header and the described slice. -/
theorem dm_c4_witness :
    ioctlLoop (fun _ _ => Except.ok (List.replicate 32 0)) defaultHdr 0 0 [] =
      some (Except.ok (deserializeHdr (List.replicate 32 0),
        ((List.replicate 32 0).drop (deserializeHdr (List.replicate 32 0)).data_start).take
          ((deserializeHdr (List.replicate 32 0)).data_size -
            (deserializeHdr (List.replicate 32 0)).data_start))) :=
  (dm_c4_reply_extraction _ defaultHdr 0 0 [] _ rfl (by decide)).1

lemma hdr_set_id_flags (hdr : DmHdr) (id : DevId) : (hdr_set_id hdr id).flags = hdr.flags := by
  cases id <;> rfl

lemma hdr_set_id_version1 (hdr : DmHdr) (id : DevId) :
    (hdr_set_id hdr id).version1 = hdr.version1 := by
  cases id <;> rfl

lemma hdr_set_id_data_start (hdr : DmHdr) (id : DevId) :
    (hdr_set_id hdr id).data_start = hdr.data_start := by
  cases id <;> rfl

/-- C5: each operation writes into the header exactly the caller flags
AND-masked with the bits it accepts: remove_all keeps only
DM_DEFERRED_REMOVE, device_suspend only DM_SUSPEND, DM_NOFLUSH and
DM_SKIP_LOCKFS, table_status only DM_NOFLUSH, DM_STATUS_TABLE and
DM_QUERY_INACTIVE_TABLE. -/
theorem dm_c5_flag_masks :
    ∀ flags id,
      (remove_all_hdr flags).flags = flags &&& DM_DEFERRED_REMOVE ∧
      (device_suspend_hdr id flags).flags =
        flags &&& (DM_SUSPEND ||| DM_NOFLUSH ||| DM_SKIP_LOCKFS) ∧
      (table_status_hdr id flags).flags =
        flags &&& (DM_NOFLUSH ||| DM_STATUS_TABLE ||| DM_QUERY_INACTIVE_TABLE) := by
  intro flags id
  refine ⟨?_, ?_, ?_⟩
  · simp [remove_all_hdr, init_hdr, Nat.land_comm]
  · rw [device_suspend_hdr, hdr_set_id_flags]
    simp [init_hdr, Nat.land_comm]
  · rw [table_status_hdr, hdr_set_id_flags]
    simp [init_hdr, Nat.land_comm]

/-- C6 counterexample: the initialization routine does not zero the
flags field; called with the deferred-remove bit it stores that bit. -/
theorem dm_c6_counterexample : (init_hdr defaultHdr 131072).flags ≠ 0 := by decide

/-- C6 (amended): every operation header passes through the single
initialization routine, which stamps the version triple 4, 30, 0, sets
data_start to the header struct size, and sets the flags word to
exactly the caller-supplied, already-masked flag bits (rather than
zeroing it). -/
theorem dm_c6_init_hdr :
    ∀ hdr flags id,
      (init_hdr hdr flags).version0 = 4 ∧
      (init_hdr hdr flags).version1 = 30 ∧
      (init_hdr hdr flags).version2 = 0 ∧
      (init_hdr hdr flags).data_start = dm_ioctl_size ∧
      (init_hdr hdr flags).flags = flags ∧
      remove_all_hdr flags = init_hdr defaultHdr (DM_DEFERRED_REMOVE &&& flags) ∧
      device_suspend_hdr id flags =
        hdr_set_id (init_hdr defaultHdr ((DM_SUSPEND ||| DM_NOFLUSH ||| DM_SKIP_LOCKFS) &&& flags))
          id ∧
      (table_load_hdr id []).version1 = 30 := by
  intro hdr flags id
  refine ⟨rfl, rfl, rfl, rfl, rfl, rfl, rfl, ?_⟩
  rw [table_load_hdr]
  show (hdr_set_id (init_hdr defaultHdr 0) id).version1 = 30
  rw [hdr_set_id_version1]
  rfl

/-- C9: the message output is present exactly when the data-out flag is
set in the reply header, in which case it is the payload with its final
byte removed; with the flag clear it is none regardless of the payload. -/
theorem dm_c9_target_msg_output :
    ∀ flags data,
      ((target_msg_output flags data).isSome ↔ flags &&& DM_DATA_OUT ≠ 0) ∧
      (flags &&& DM_DATA_OUT ≠ 0 → target_msg_output flags data = some data.dropLast) ∧
      (flags &&& DM_DATA_OUT = 0 → target_msg_output flags data = none) := by
  intro flags data
  refine ⟨?_, ?_, ?_⟩
  · rw [target_msg_output]
    constructor
    · intro h
      by_contra hz
      simp [hz] at h
    · intro h
      simp [Nat.pos_of_ne_zero h]
  · intro h
    rw [target_msg_output, if_pos (Nat.pos_of_ne_zero h), List.dropLast_eq_take]
  · intro h
    simp [target_msg_output, h]

/-- C9 witness: with the data-out bit set and a two-byte payload, the
output is the payload without its final byte. -/
theorem dm_c9_witness : target_msg_output 65536 [65, 0] = some [65] := by
  have h := (dm_c9_target_msg_output 65536 [65, 0]).2.1 (by decide)
  simpa using h

/-- C10: every list-decoding operation returns the empty list on an
empty reply payload: list_devices for every kernel minor version,
list_versions, table_deps, and parse_table_status for every expected
row count. -/
theorem dm_c10_empty_payload :
    (∀ minor, list_devices_parse minor [] = some []) ∧
    list_versions_parse [] = some [] ∧
    table_deps_parse [] = some [] ∧
    (∀ count, parse_table_status count [] = some []) := by
  refine ⟨fun minor => rfl, rfl, rfl, fun count => rfl⟩

/-- C8: the event number reported for a device list record is keyed on
the kernel minor version from the reply header: none for minors 0
through 35; for minor 36 a u32 read at the name-list record size plus
the name length plus 1 plus an extra 7 bytes, aligned up to 8; for
every other minor a u32 read at 12 plus the name length plus 1, aligned
up to 8. -/
theorem dm_c8_event_nr_offset :
    ∀ minor result nm dv nxt ev,
      parseOneDevice minor result = some (nm, dv, nxt, ev) →
      (minor ≤ 35 → ev = none) ∧
      (minor = 36 →
        ev = some (readU32 result (alignTo (dm_name_list_size + (nm.length + 1) + 7) 8))) ∧
      (37 ≤ minor → ev = some (readU32 result (alignTo (12 + (nm.length + 1)) 8))) := by
  intro minor result nm dv nxt ev h
  rw [parseOneDevice] at h
  cases hslc : sliceToNull (result.drop dm_name_list_size) with
  | none => rw [hslc] at h; exact absurd h (by simp)
  | some slc =>
    rw [hslc] at h
    simp only [Option.some_inj, Prod.mk.injEq] at h
    obtain ⟨h1, h2, h3, h4⟩ := h
    subst h1
    refine ⟨?_, ?_, ?_⟩
    · intro hm
      rw [← h4, if_pos (by omega), if_neg (by omega)]
    · intro hm
      rw [← h4, if_pos (by omega), if_pos hm]
    · intro hm
      rw [← h4, if_neg (by omega)]

/-- C8 witness: a 24-byte all-zero record parsed at minor version 36
reports the event number read at the shim offset. -/
theorem dm_c8_witness :
    (some 0 : Option Nat) =
      some (readU32 (List.replicate 24 0) (alignTo (dm_name_list_size + (0 + 1) + 7) 8)) := by
  have h := dm_c8_event_nr_offset 36 (List.replicate 24 0) [] 0 0 (some 0) (by decide)
  exact h.2.1 rfl

lemma alignTo8_ge (n : Nat) : n + 1 ≤ alignTo (n + 1) 8 := by
  simp [alignTo]
  omega

lemma length_padParams (p : List Nat) : (padParams p).length = alignTo (p.length + 1) 8 := by
  have := alignTo8_ge p.length
  simp [padParams]
  omega

lemma length_padParams_mod8 (p : List Nat) : (padParams p).length % 8 = 0 := by
  rw [length_padParams]
  simp [alignTo]

lemma length_padParams_le (p : List Nat) : (padParams p).length ≤ p.length + 8 := by
  rw [length_padParams]
  simp [alignTo]
  omega

lemma padParams_eq (p : List Nat) :
    padParams p =
      p ++ 0 :: List.replicate (alignTo (p.length + 1) 8 - p.length - 1) 0 := by
  have h := alignTo8_ge p.length
  have hk : alignTo (p.length + 1) 8 - p.length =
      (alignTo (p.length + 1) 8 - p.length - 1) + 1 := by omega
  rw [padParams, hk, List.replicate_succ]
  simp

lemma length_typeField (tt : List Nat) (h : tt.length ≤ 16) : (typeField tt).length = 16 := by
  simp [typeField]
  omega

lemma sliceToNull_append (p r : List Nat) (h : (0 : Nat) ∉ p) :
    sliceToNull (p ++ 0 :: r) = some p := by
  induction p with
  | nil => simp [sliceToNull]
  | cons b p ih =>
    have hb : b ≠ 0 := by
      intro hb
      exact h (by simp [hb])
    have hp : (0 : Nat) ∉ p := fun hm => h (List.mem_cons_of_mem b hm)
    simp [sliceToNull, hb, ih hp]

lemma typeField_eq (tt : List Nat) (h : tt.length < 16) :
    typeField tt = tt ++ 0 :: List.replicate (16 - tt.length - 1) 0 := by
  have hk : 16 - tt.length = (16 - tt.length - 1) + 1 := by omega
  rw [typeField, hk, List.replicate_succ]
  simp

lemma sliceToNull_typeField (tt : List Nat) (h : tt.length < 16) (h0 : (0 : Nat) ∉ tt) :
    sliceToNull (typeField tt) = some tt := by
  rw [typeField_eq tt h]
  exact sliceToNull_append tt _ h0

lemma length_encBody (t : TargetLine) (h : t.target_type.length ≤ 16) :
    (encBody t).length = dm_target_spec_size + (padParams t.params).length := by
  simp [encBody, length_u64le, length_u32le, length_typeField t.target_type h,
    dm_target_spec_size]
  omega

lemma encBody_split24 (t : TargetLine) (rest : List Nat) :
    encBody t ++ rest =
      (u64le t.start ++ u64le t.length ++ u32le 0 ++
        u32le (dm_target_spec_size + (padParams t.params).length)) ++
        (typeField t.target_type ++ (padParams t.params ++ rest)) := by
  simp [encBody, List.append_assoc]

lemma encBody_drop24 (t : TargetLine) (rest : List Nat) :
    (encBody t ++ rest).drop 24 = typeField t.target_type ++ (padParams t.params ++ rest) := by
  rw [encBody_split24]
  exact List.drop_left' (by simp [length_u64le, length_u32le])

lemma encBody_drop40 (t : TargetLine) (rest : List Nat) (h : t.target_type.length ≤ 16) :
    (encBody t ++ rest).drop 40 = padParams t.params ++ rest := by
  have hsplit : encBody t ++ rest =
      ((u64le t.start ++ u64le t.length ++ u32le 0 ++
        u32le (dm_target_spec_size + (padParams t.params).length)) ++
        typeField t.target_type) ++ (padParams t.params ++ rest) := by
    simp [encBody, List.append_assoc]
  rw [hsplit]
  exact List.drop_left' (by simp [length_u64le, length_u32le, length_typeField t.target_type h])

lemma encBody_read_start (t : TargetLine) (rest : List Nat) :
    readU64 (encBody t ++ rest) 0 = t.start % 2 ^ 64 := by
  have : encBody t ++ rest =
      u64le t.start ++ (u64le t.length ++ u32le 0 ++
        u32le (dm_target_spec_size + (padParams t.params).length) ++
        typeField t.target_type ++ (padParams t.params ++ rest)) := by
    simp [encBody, List.append_assoc]
  rw [this, readU64_u64le]

lemma encBody_read_length (t : TargetLine) (rest : List Nat) :
    readU64 (encBody t ++ rest) 8 = t.length % 2 ^ 64 := by
  rw [readU64_eq_drop]
  have : (encBody t ++ rest).drop 8 =
      u64le t.length ++ (u32le 0 ++
        u32le (dm_target_spec_size + (padParams t.params).length) ++
        typeField t.target_type ++ (padParams t.params ++ rest)) := by
    have hsplit : encBody t ++ rest =
        u64le t.start ++ (u64le t.length ++ (u32le 0 ++
          u32le (dm_target_spec_size + (padParams t.params).length) ++
          typeField t.target_type ++ (padParams t.params ++ rest))) := by
      simp [encBody, List.append_assoc]
    rw [hsplit, List.drop_left' (length_u64le t.start)]
  rw [this, readU64_u64le]

lemma encBody_read_next (t : TargetLine) (rest : List Nat) :
    readU32 (encBody t ++ rest) 20 =
      (dm_target_spec_size + (padParams t.params).length) % 2 ^ 32 := by
  rw [readU32_eq_drop]
  have : (encBody t ++ rest).drop 20 =
      u32le (dm_target_spec_size + (padParams t.params).length) ++
        (typeField t.target_type ++ (padParams t.params ++ rest)) := by
    have hsplit : encBody t ++ rest =
        (u64le t.start ++ u64le t.length ++ u32le 0) ++
          (u32le (dm_target_spec_size + (padParams t.params).length) ++
            (typeField t.target_type ++ (padParams t.params ++ rest))) := by
      simp [encBody, List.append_assoc]
    rw [hsplit, List.drop_left' (by simp [length_u64le, length_u32le])]
  rw [this, readU32_u32le]

/-- Well-formedness of a target line for the round-trip statement: the
numeric fields fit their wire widths, the type name fits its 16-byte
field with a terminating NUL and contains no NUL, and the parameter
string contains no NUL and fits the 32-bit next-offset field. -/
def wfTargetLine (t : TargetLine) : Prop :=
  t.start < 2 ^ 64 ∧ t.length < 2 ^ 64 ∧ t.target_type.length < 16 ∧
    (0 : Nat) ∉ t.target_type ∧ (0 : Nat) ∉ t.params ∧ t.params.length + 48 < 2 ^ 32

instance (t : TargetLine) : Decidable (wfTargetLine t) := by
  unfold wfTargetLine
  infer_instance

lemma isEmpty_false_of_length (l : List Nat) (h : l.length ≠ 0) : l.isEmpty = false := by
  cases l
  · simp at h
  · rfl

lemma parseOneTarget_encBody (t : TargetLine) (rest : List Nat) (h : wfTargetLine t) :
    parseOneTarget (encBody t ++ rest) =
      some (canonicalLine t, dm_target_spec_size + (padParams t.params).length) := by
  obtain ⟨hs, hl, htt, htt0, hp0, hb⟩ := h
  have htt16 : t.target_type.length ≤ 16 := le_of_lt htt
  have hslice1 : sliceToNull (((encBody t ++ rest).drop 24).take 16) = some t.target_type := by
    rw [encBody_drop24, List.take_left' (length_typeField t.target_type htt16)]
    exact sliceToNull_typeField t.target_type htt htt0
  have hslice2 : sliceToNull ((encBody t ++ rest).drop dm_target_spec_size) =
      some t.params := by
    have hdrop : (encBody t ++ rest).drop dm_target_spec_size = padParams t.params ++ rest :=
      encBody_drop40 t rest htt16
    rw [hdrop, padParams_eq]
    have hassoc :
        (t.params ++
            0 :: List.replicate (alignTo (t.params.length + 1) 8 - t.params.length - 1) 0) ++
          rest =
        t.params ++
          0 :: (List.replicate (alignTo (t.params.length + 1) 8 - t.params.length - 1) 0 ++
            rest) := by
      simp
    rw [hassoc]
    exact sliceToNull_append t.params _ hp0
  have hbound : dm_target_spec_size + (padParams t.params).length < 2 ^ 32 := by
    have := length_padParams_le t.params
    simp [dm_target_spec_size]
    omega
  rw [parseOneTarget, hslice1, hslice2]
  simp only [encBody_read_start, encBody_read_length, encBody_read_next,
    Nat.mod_eq_of_lt hs, Nat.mod_eq_of_lt hl, Nat.mod_eq_of_lt hbound]
  rfl

/-- C7: table_load encodes each input line as the fixed 40-byte target
record followed by the parameter string padded with NULs so that the
padded string is 8-byte aligned and contains at least one terminating
NUL; the record next-offset field is computed as the fixed record size
plus the padded parameter length, never taken from caller input; and
the header target_count is the number of input lines. -/
theorem dm_c7_table_load_encoding :
    ∀ t id ts, t.target_type.length ≤ 16 →
      encodeSpec t =
        some (u64le t.start ++ u64le t.length ++ u32le 0 ++
          u32le (dm_target_spec_size + (padParams t.params).length) ++
          typeField t.target_type ++ padParams t.params) ∧
      (padParams t.params).length % 8 = 0 ∧
      padParams t.params =
        t.params ++
          0 :: List.replicate (alignTo (t.params.length + 1) 8 - t.params.length - 1) 0 ∧
      (t.params.length + 48 < 2 ^ 32 →
        readU32 (encBody t) 20 = dm_target_spec_size + (padParams t.params).length) ∧
      (ts.length < 2 ^ 32 → (table_load_hdr id ts).target_count = ts.length) := by
  intro t id ts h
  refine ⟨?_, length_padParams_mod8 t.params, padParams_eq t.params, ?_, ?_⟩
  · rw [encodeSpec, if_pos h]
    rfl
  · intro hb
    have hbound : dm_target_spec_size + (padParams t.params).length < 2 ^ 32 := by
      have := length_padParams_le t.params
      simp [dm_target_spec_size]
      omega
    have := encBody_read_next t []
    rw [List.append_nil] at this
    rw [this, Nat.mod_eq_of_lt hbound]
  · intro hc
    simp [table_load_hdr]
    omega

/-- C7 witness: a concrete line with a 2-byte parameter string has its
next-offset field equal to 40 plus the 8-byte padded parameter length. -/
theorem dm_c7_witness :
    readU32 (encBody ⟨1, 2, [108], [97, 98]⟩) 20 =
      dm_target_spec_size + (padParams [97, 98]).length := by
  have h := dm_c7_table_load_encoding ⟨1, 2, [108], [97, 98]⟩ (DevId.byName [100]) []
    (by decide)
  exact h.2.2.2.1 (by decide)

lemma encodeTargets_getD_one (a : TargetLine) (h : a.target_type.length ≤ 16) :
    (encodeTargets [a]).getD [] = encBody a := by
  simp [encodeTargets, encodeSpec, h]

lemma encodeTargets_getD_two (a b : TargetLine) (ha : a.target_type.length ≤ 16)
    (hb : b.target_type.length ≤ 16) :
    (encodeTargets [a, b]).getD [] = encBody a ++ encBody b := by
  simp [encodeTargets, encodeSpec, ha, hb]

lemma length_encBody_pos (t : TargetLine) (h : t.target_type.length ≤ 16) :
    (encBody t).length ≠ 0 := by
  rw [length_encBody t h]
  simp [dm_target_spec_size]

lemma parseOneTarget_encBody_nil (t : TargetLine) (h : wfTargetLine t) :
    parseOneTarget (encBody t) =
      some (canonicalLine t, dm_target_spec_size + (padParams t.params).length) := by
  have := parseOneTarget_encBody t [] h
  rwa [List.append_nil] at this

/-- C2 counterexample: parse_table_status applied to the table_load
encoding of three concrete target lines does not reproduce the lines.
The encoding writes each record next-offset relative to that record,
while the parser treats next offsets as absolute positions in the
buffer, so from the third row on it re-reads earlier bytes: here the
third parsed row repeats the second line instead of the third. -/
theorem dm_c2_counterexample :
    (encodeTargets
          [⟨0, 1, [97], []⟩, ⟨0, 2, [97], []⟩, ⟨7, 3, [97], []⟩]).isSome = true ∧
      parse_table_status 3
          ((encodeTargets
              [⟨0, 1, [97], []⟩, ⟨0, 2, [97], []⟩, ⟨7, 3, [97], []⟩]).getD []) ≠
        some [canonicalLine ⟨0, 1, [97], []⟩, canonicalLine ⟨0, 2, [97], []⟩,
          canonicalLine ⟨7, 3, [97], []⟩] := by
  constructor
  · decide
  · decide

/-- C2 (amended): for every list of at most two well-formed target
lines, parsing the table-status reply for the byte buffer produced by
the table_load target-record encoding with the expected count yields
exactly the input rows, in order, with parameter strings trimmed of
trailing whitespace.  (For three or more lines the property fails, see
the counterexample: load-encoding next offsets are record-relative
while the parser reads them as absolute.) -/
theorem dm_c2_roundtrip_two :
    parse_table_status 0 ((encodeTargets []).getD []) = some [] ∧
    (∀ a, wfTargetLine a →
      parse_table_status 1 ((encodeTargets [a]).getD []) = some [canonicalLine a]) ∧
    (∀ a b, wfTargetLine a → wfTargetLine b →
      parse_table_status 2 ((encodeTargets [a, b]).getD []) =
        some [canonicalLine a, canonicalLine b]) := by
  refine ⟨rfl, ?_, ?_⟩
  · intro a ha
    have ha16 : a.target_type.length ≤ 16 := le_of_lt ha.2.2.1
    rw [encodeTargets_getD_one a ha16, parse_table_status,
      if_neg (by rw [isEmpty_false_of_length _ (length_encBody_pos a ha16)]; simp)]
    rw [parseLoopTS, List.drop_zero, parseOneTarget_encBody_nil a ha]
    rfl
  · intro a b ha hb
    have ha16 : a.target_type.length ≤ 16 := le_of_lt ha.2.2.1
    have hb16 : b.target_type.length ≤ 16 := le_of_lt hb.2.2.1
    rw [encodeTargets_getD_two a b ha16 hb16, parse_table_status]
    have hne : (encBody a ++ encBody b).isEmpty = false := by
      apply isEmpty_false_of_length
      rw [List.length_append]
      have := length_encBody_pos a ha16
      omega
    rw [if_neg (by rw [hne]; simp)]
    have h1 := parseOneTarget_encBody a (encBody b) ha
    have h2 := parseOneTarget_encBody_nil b hb
    have hdrop : (encBody a ++ encBody b).drop
        (dm_target_spec_size + (padParams a.params).length) = encBody b := by
      rw [← length_encBody a ha16]
      exact List.drop_left (encBody a) (encBody b)
    have step1 : parseLoopTS (encBody a ++ encBody b) 1
        (dm_target_spec_size + (padParams a.params).length) = some [canonicalLine b] := by
      have s : parseLoopTS (encBody a ++ encBody b) 1
          (dm_target_spec_size + (padParams a.params).length) =
          match parseOneTarget ((encBody a ++ encBody b).drop
              (dm_target_spec_size + (padParams a.params).length)) with
          | none => none
          | some (t, nxt) =>
            match parseLoopTS (encBody a ++ encBody b) 0 nxt with
            | none => none
            | some rest => some (t :: rest) := rfl
      rw [s, hdrop, h2]
      rfl
    have step2 : parseLoopTS (encBody a ++ encBody b) 2 0 =
        match parseOneTarget ((encBody a ++ encBody b).drop 0) with
        | none => none
        | some (t, nxt) =>
          match parseLoopTS (encBody a ++ encBody b) 1 nxt with
          | none => none
          | some rest => some (t :: rest) := rfl
    rw [step2, List.drop_zero, h1]
    simp only [step1]

/-- C2 witness: the amended round trip evaluated at two concrete lines. -/
theorem dm_c2_witness :
    parse_table_status 2 ((encodeTargets [⟨0, 1, [97], [98]⟩, ⟨2, 3, [99], []⟩]).getD []) =
      some [canonicalLine ⟨0, 1, [97], [98]⟩, canonicalLine ⟨2, 3, [99], []⟩] :=
  dm_c2_roundtrip_two.2.2 ⟨0, 1, [97], [98]⟩ ⟨2, 3, [99], []⟩ (by decide) (by decide)
